import Mathlib

/-!
Verification of the ingestion / normalization / enrichment / aggregation
pipeline of the DC Spec Dashboard (src/index.tsx, with the variant in
src/unnamed/part_000).

The embedding is shallow: spreadsheet cell values become an inductive
`JSVal`; JavaScript numbers are modelled as rationals (finite, no NaN —
the spreadsheet decoder hands back finite numbers and strings);
`Record<string, number>` objects built by insertion become association
lists in insertion order; `Array.prototype.sort`, which is stable, becomes
a stable insertion sort.  Fields of the canonical record keep the source
names.
-/

set_option maxRecDepth 10000

attribute [local semireducible] Rat.add Rat.sub Rat.mul Rat.inv

/-- A spreadsheet cell value as seen by the JavaScript code: `undefined`
(missing), `null`, a finite number, or a string. -/
inductive JSVal where
  | vUndef : JSVal
  | vNull : JSVal
  | vNum : ℚ → JSVal
  | vStr : String → JSVal
  deriving Repr, DecidableEq

/-- JavaScript truthiness of a cell value: `undefined`, `null`, `0` and
`""` are falsy. -/
def jsTruthy : JSVal → Bool
  | JSVal.vUndef => false
  | JSVal.vNull => false
  | JSVal.vNum q => q != 0
  | JSVal.vStr s => s != ""

/-- `String(v)` on a cell value.  For numbers we use the rational
`toString` as a stand-in for JavaScript number rendering; the
development only relies on it being some fixed string, never on its
exact shape. -/
def jsToString : JSVal → String
  | JSVal.vUndef => "undefined"
  | JSVal.vNull => "null"
  | JSVal.vNum q => toString q
  | JSVal.vStr s => s

/-- Is `c` in the Korean syllable block 가-힣 (U+AC00 – U+D7A3)? -/
def isHangul (c : Char) : Bool := 0xAC00 ≤ c.toNat && c.toNat ≤ 0xD7A3

/-- `normalizeKey` from src/index.tsx line 92:
`key.toString().toLowerCase().replace(/[^a-z0-9가-힣]/g, '')`.
`Char.toLower` lowers ASCII letters, which covers every alias that the
normalizer uses. -/
def normalizeKey (s : String) : String :=
  String.mk ((s.data.map Char.toLower).filter
    (fun c => (('a' ≤ c && c ≤ 'z') || ('0' ≤ c && c ≤ '9') || isHangul c)))

/-- One decoded spreadsheet row: keys in insertion order, as
`Object.keys` exposes them. -/
def Row : Type := List (String × JSVal)

/-- `getVal` from src/index.tsx lines 94-104: the value of the first row
key whose normalized form matches a normalized alias; `undefined`
(here `none`) when no key matches. -/
def getVal (row : Row) (aliases : List String) : Option JSVal :=
  let normalizedAliases := aliases.map normalizeKey
  (row.find? (fun kv => normalizedAliases.contains (normalizeKey kv.fst))).map
    Prod.snd

/-- Numeric value of a digit list, most significant first. -/
def digitsToNat (ds : List Char) : ℕ :=
  ds.foldl (fun n c => 10 * n + (c.toNat - 48)) 0

/-- Core of JavaScript `parseFloat` on a decimal literal: the longest
prefix `digits [ '.' digits ]` is read (so a second decimal point stops
the parse); `none` models NaN (no digit read at all).  Exponent
notation is outside the scope of this development: no input considered
here uses it. -/
def parseFloatCore (cs : List Char) : Option ℚ :=
  let intPart := cs.takeWhile Char.isDigit
  let rest := cs.dropWhile Char.isDigit
  match rest with
  | '.' :: rest2 =>
      let fracPart := rest2.takeWhile Char.isDigit
      if intPart.isEmpty && fracPart.isEmpty then none
      else some ((digitsToNat intPart : ℚ)
        + (digitsToNat fracPart : ℚ) / ((10 : ℚ) ^ fracPart.length))
  | _ => if intPart.isEmpty then none else some (digitsToNat intPart)

/-- JavaScript `parseFloat` on a string: skip leading spaces, read an
optional sign, then a decimal literal; `none` models NaN. -/
def parseFloatJS (s : String) : Option ℚ :=
  match s.data.dropWhile (fun c => c = ' ') with
  | '-' :: rest => (parseFloatCore rest).map (fun q => -q)
  | '+' :: rest => parseFloatCore rest
  | cs => parseFloatCore cs

/-- `String(val).replace(/[^0-9.]/g, '')` from src/index.tsx line 109:
every character outside digits and the decimal point is stripped. -/
def cleanNumStr (s : String) : String :=
  String.mk (s.data.filter (fun c => c.isDigit || c = '.'))

/-- `parseNum` from src/index.tsx lines 106-112: `undefined`, `null` and
`''` give 0; a number passes through; a string is cleaned to digits and
dots, then `parseFloat`-ed, a NaN result giving 0.  The model is a
total function into ℚ, which is the shallow form of "never throws and
never returns NaN". -/
def parseNum : JSVal → ℚ
  | JSVal.vUndef => 0
  | JSVal.vNull => 0
  | JSVal.vNum q => q
  | JSVal.vStr s =>
      if s = "" then 0
      else match parseFloatJS (cleanNumStr s) with
        | some parsed => parsed
        | none => 0

/-- `parseFloat(String(v || ''))` on an optional cell value, before the
`|| null` coalescing: for a string cell this is `parseFloat` of the
string; a number cell round-trips through its string form (`0` is falsy
and becomes `''`, i.e. NaN); missing cells give NaN (`none`). -/
def rawCellFloat : Option JSVal → Option ℚ
  | some (JSVal.vNum q) => if q = 0 then none else some q
  | some (JSVal.vStr s) => parseFloatJS s
  | _ => none

/-- `parseFloat(String(v || '')) || null` from src/index.tsx lines
321-322: a NaN or 0 parse result is coalesced to `null`. -/
def parseCoord (v : Option JSVal) : Option ℚ :=
  match rawCellFloat v with
  | some q => if q = 0 then none else some q
  | none => none

/-- `String(getVal(...) || fallback)` — the text coercion used for every
string field of the canonical record. -/
def strOr (v : Option JSVal) (fallback : String) : String :=
  match v with
  | some x => if jsTruthy x then jsToString x else fallback
  | none => fallback

/-- `ExcelRow` from src/index.tsx lines 46-61 (the canonical record). -/
structure ExcelRow where
  id : String
  project_name : String
  year : ℚ
  month : ℚ
  progress : String
  address : String
  latitude : Option ℚ
  longitude : Option ℚ
  designer : String
  constructor : String
  product_name : String
  quantity : ℚ
  spec_amount : ℚ
  deriving Repr, DecidableEq

/-- Alias table for project_name in src/index.tsx line 316. -/
def pnameAliases : List String := ["project_name", "프로젝트명", "현장명", "PJT", "project"]

/-- Alias table for latitude in src/index.tsx line 321. -/
def latAliases : List String := ["latitude", "위도", "lat", "y", "latitude_val"]

/-- Alias table for longitude in src/index.tsx line 322. -/
def lngAliases : List String := ["longitude", "경도", "lng", "long", "x", "longitude_val"]

/-- The per-row mapping of src/index.tsx lines 314-327: resolve each of
the twelve fields through its alias list and coerce it. -/
def normalizeRow (idx : ℕ) (row : Row) : ExcelRow :=
  { id := "row-" ++ toString idx
    project_name := strOr (getVal row pnameAliases) ""
    year := parseNum ((getVal row ["year", "연도", "년", "년도"]).getD JSVal.vUndef)
    month := parseNum ((getVal row ["month", "월"]).getD JSVal.vUndef)
    progress := strOr (getVal row ["progress", "진행내용", "상태", "status"]) "-"
    address := strOr (getVal row ["address", "주소", "상세주소", "addr"]) "-"
    latitude := parseCoord (getVal row latAliases)
    longitude := parseCoord (getVal row lngAliases)
    designer := strOr (getVal row ["designer", "설계사", "설계"]) "-"
    constructor := strOr (getVal row ["constructor", "건설사", "시공사", "시공"]) "-"
    product_name := strOr (getVal row ["product_name", "제품명", "품명"]) "-"
    quantity := parseNum ((getVal row ["quantity", "물량", "수량"]).getD JSVal.vUndef)
    spec_amount := parseNum ((getVal row ["spec_amount", "스펙량", "스펙", "합계", "amount"]).getD JSVal.vUndef) }

/-- The normalization stage of `handleFileUpload` (src/index.tsx lines
314-328): map every decoded row through `normalizeRow`, then keep the
rows whose project_name is truthy (non-empty). -/
def handleFileUpload (json : List Row) : List ExcelRow :=
  (json.enum.map (fun p => normalizeRow p.fst p.snd)).filter
    (fun r => r.project_name != "")

/-- Truthiness of a `number | null` coordinate field (`!d.latitude`):
`null` and `0` are falsy. -/
def truthyCoord : Option ℚ → Bool
  | some q => q != 0
  | none => false

/-- The candidate filter of `processAndSaveData`, src/index.tsx line 275:
`(!d.latitude || !d.longitude) && d.address && d.address !== '-' &&
d.address.length > 5`.  `String.length` counts code points, which agrees
with the JavaScript UTF-16 length for the BMP text handled here. -/
def isGeocodeCandidate (d : ExcelRow) : Bool :=
  (!truthyCoord d.latitude || !truthyCoord d.longitude)
    && d.address != "" && d.address != "-" && decide (5 < d.address.length)

/-- src/index.tsx line 275: the records selected for geocoding. -/
def rowsToGeocode (rawData : List ExcelRow) : List ExcelRow :=
  rawData.filter isGeocodeCandidate

/-- Helper for `jsSetDedup`: drop every element already in `seen`,
keeping first occurrences in order. -/
def jsSetDedupAux {α : Type} [DecidableEq α] (seen : List α) : List α → List α
  | [] => []
  | a :: rest =>
      if a ∈ seen then jsSetDedupAux seen rest
      else a :: jsSetDedupAux (a :: seen) rest

/-- `Array.from(new Set(l))`: the distinct elements of `l`, each at its
first occurrence, in order. -/
def jsSetDedup {α : Type} [DecidableEq α] (l : List α) : List α :=
  jsSetDedupAux [] l

/-- src/index.tsx line 282: the deduplicated address list; the geocoding
loop (lines 284-291) issues exactly one external lookup per entry of
this list. -/
def uniqueAddresses (rawData : List ExcelRow) : List String :=
  jsSetDedup ((rowsToGeocode rawData).map (fun d => d.address))

/-- One insertion into a string-keyed `Record<string, number>` that sums
into the key (`m[k] = (m[k] || 0) + v`): an existing key keeps its
position, a new key is appended; `Object.entries` later exposes exactly
this insertion order. -/
def bump (m : List (String × ℚ)) (k : String) (v : ℚ) : List (String × ℚ) :=
  match m with
  | [] => [(k, v)]
  | (k0, v0) :: rest =>
      if k0 = k then (k0, v0 + v) :: rest else (k0, v0) :: bump rest k v

/-- Stable insert for a descending sort by value: the new element goes
after every element whose value is greater or equal, which is how the
stable `Array.prototype.sort` with comparator `(a, b) => b[1] - a[1]`
places an element relative to earlier ones. -/
def insertDesc (x : String × ℚ) : List (String × ℚ) → List (String × ℚ)
  | [] => [x]
  | y :: rest => if y.snd < x.snd then x :: y :: rest else y :: insertDesc x rest

/-- Stable descending sort by value (model of the stable
`Array.prototype.sort` with comparator `(a, b) => b[1] - a[1]`). -/
def sortDesc (l : List (String × ℚ)) : List (String × ℚ) :=
  l.foldl (fun acc x => insertDesc x acc) []

/-- src/index.tsx line 220:
`d.constructor && d.constructor !== '-' ? d.constructor : '기타'`. -/
def consLabel (d : ExcelRow) : String :=
  if d.constructor != "" && d.constructor != "-" then d.constructor else "기타"

/-- src/index.tsx line 221:
`d.designer && d.designer !== '-' ? d.designer : '기타'`. -/
def desLabel (d : ExcelRow) : String :=
  if d.designer != "" && d.designer != "-" then d.designer else "기타"

/-- The result of the `summary` memo (src/index.tsx lines 213-230). -/
structure SummaryT where
  siteCount : ℕ
  totalSpec : ℚ
  top3Cons : List (String × ℚ)
  top3Des : List (String × ℚ)
  deriving Repr, DecidableEq

/-- The `summary` memo, src/index.tsx lines 213-230.
`Number(d.spec_amount) || 0` is the identity in the model: spec_amount
is a finite number and `q || 0` only rewrites 0 to 0. -/
def summary (fd : List ExcelRow) : SummaryT :=
  { siteCount := (jsSetDedup (fd.map (fun d => d.project_name))).length
    totalSpec := fd.foldl (fun sum d => sum + d.spec_amount) 0
    top3Cons :=
      (sortDesc (fd.foldl (fun m d => bump m (consLabel d) d.spec_amount) [])).take 5
    top3Des :=
      (sortDesc (fd.foldl (fun m d => bump m (desLabel d) d.spec_amount) [])).take 5 }

/-- src/unnamed/part_000 line 379: `d.constructor || '기타'` — only a
falsy (empty) constructor is relabelled; the placeholder "-" keeps its
own bucket. -/
def consLabelP (d : ExcelRow) : String :=
  if d.constructor != "" then d.constructor else "기타"

/-- src/unnamed/part_000 line 380: `d.designer || '기타'`. -/
def desLabelP (d : ExcelRow) : String :=
  if d.designer != "" then d.designer else "기타"

/-- The `summary` memo of src/unnamed/part_000 lines 373-390; identical
to the src/index.tsx one except for the bucket labels. -/
def summaryP (fd : List ExcelRow) : SummaryT :=
  { siteCount := (jsSetDedup (fd.map (fun d => d.project_name))).length
    totalSpec := fd.foldl (fun sum d => sum + d.spec_amount) 0
    top3Cons :=
      (sortDesc (fd.foldl (fun m d => bump m (consLabelP d) d.spec_amount) [])).take 5
    top3Des :=
      (sortDesc (fd.foldl (fun m d => bump m (desLabelP d) d.spec_amount) [])).take 5 }

/-- The `filteredData` memo, src/index.tsx lines 198-204. -/
def filteredData (data : List ExcelRow) (selectedYear selectedMonth : ℚ) :
    List ExcelRow :=
  data.filter (fun d =>
    (selectedYear == 0 || d.year == selectedYear)
      && (selectedMonth == 0 || d.month == selectedMonth))

/-- `bump` for a number-keyed `Record<number, number>`. -/
def bumpQ (m : List (ℚ × ℚ)) (k : ℚ) (v : ℚ) : List (ℚ × ℚ) :=
  match m with
  | [] => [(k, v)]
  | (k0, v0) :: rest =>
      if k0 = k then (k0, v0 + v) :: rest else (k0, v0) :: bumpQ rest k v

/-- Stable insert for an ascending sort by key (comparator
`(a, b) => Number(a[0]) - Number(b[0])`). -/
def insertAscQ (x : ℚ × ℚ) : List (ℚ × ℚ) → List (ℚ × ℚ)
  | [] => [x]
  | y :: rest => if x.fst < y.fst then x :: y :: rest else y :: insertAscQ x rest

/-- Stable ascending sort by key. -/
def sortAscQ (l : List (ℚ × ℚ)) : List (ℚ × ℚ) :=
  l.foldl (fun acc x => insertAscQ x acc) []

/-- Stable insert for the ascending year sort `(a, b) => a - b`. -/
def insertAscNum (x : ℚ) : List ℚ → List ℚ
  | [] => [x]
  | y :: rest => if x < y then x :: y :: rest else y :: insertAscNum x rest

/-- Stable ascending sort of a number list. -/
def sortAscNums (l : List ℚ) : List ℚ :=
  l.foldl (fun acc x => insertAscNum x acc) []

/-- The `stats.years` memo, src/index.tsx lines 188-191: distinct years
of the full data set, ascending. -/
def statsYears (data : List ExcelRow) : List ℚ :=
  sortAscNums (jsSetDedup (data.map (fun d => d.year)))

/-- The result of the `trends` memo (src/index.tsx lines 232-250). -/
structure TrendsT where
  yearTrend : List (String × ℚ)
  monthTrend : List (String × ℚ)
  designerTrend : List (String × ℚ)
  deriving Repr, DecidableEq

/-- `monthTrendMap[k] || 0`. -/
def lookupQOr (m : List (ℚ × ℚ)) (k : ℚ) : ℚ :=
  match m.find? (fun p => p.fst == k) with
  | some p => p.snd
  | none => 0

/-- The `trends` memo, src/index.tsx lines 232-250.  Labels use the
rational `toString` as the stand-in for JavaScript number rendering
(identical on the integer years and months that occur). -/
def trends (data : List ExcelRow) (selectedYear selectedMonth : ℚ) : TrendsT :=
  let fd := filteredData data selectedYear selectedMonth
  let yearMap := data.foldl (fun m d => bumpQ m d.year d.spec_amount) []
  let years := statsYears data
  let yr := if selectedYear = 0 then (years.getLast?).getD 0 else selectedYear
  let monthMap := (data.filter (fun d => d.year == yr)).foldl
    (fun m d => bumpQ m d.month d.spec_amount) []
  let dMap := fd.foldl (fun m d => bump m (desLabel d) d.spec_amount) []
  { yearTrend := (sortAscQ yearMap).map (fun p => (toString p.fst ++ "년", p.snd))
    monthTrend := (List.range 12).map
      (fun i => (toString (i + 1) ++ "월", lookupQOr monthMap ((i : ℚ) + 1)))
    designerTrend := (sortDesc dMap).take 5 }


/-- Test fixture: a canonical record with the given project name,
constructor, designer, year, month and spec amount; every other field
at its default. -/
def mkRow (name cons des : String) (year month amt : ℚ) : ExcelRow :=
  { id := "", project_name := name, year := year, month := month,
    progress := "-", address := "-", latitude := none, longitude := none,
    designer := des, constructor := cons, product_name := "-",
    quantity := 0, spec_amount := amt }

/-- Test fixture: `mkRow` with an address attached. -/
def mkRowAt (name : String) (addr : String) (amt : ℚ) : ExcelRow :=
  { mkRow name "A" "D" 2024 1 amt with address := addr }

/-- Test fixture: a raw row whose latitude cell parses but whose
longitude cell does not. -/
def rowHalfCoord : Row :=
  [("현장명", JSVal.vStr "P"), ("위도", JSVal.vStr "37.5"),
   ("경도", JSVal.vStr "abc"), ("주소", JSVal.vStr "서울특별시 강남구")]

/-- Test fixture: a raw row whose coordinate cells both parse to the
float 0, with no address cell. -/
def rowZeroCoord : Row :=
  [("현장명", JSVal.vStr "P"), ("위도", JSVal.vStr "0"), ("경도", JSVal.vStr "0")]

/-- Test fixture: a raw row with zero coordinates and a usable address. -/
def rowZeroCoordAddr : Row :=
  [("현장명", JSVal.vStr "P"), ("위도", JSVal.vStr "0"), ("경도", JSVal.vStr "0"),
   ("주소", JSVal.vStr "서울특별시 강남구")]

/-- Test fixture for Scenario F: constructors summing to
{A:300, B:300, C:100}, A encountered before B, A's total split over two
records. -/
def scenarioF : List ExcelRow :=
  [mkRow "P1" "A" "D1" 2024 1 100, mkRow "P2" "B" "D2" 2024 1 300,
   mkRow "P3" "A" "D1" 2024 1 200, mkRow "P4" "C" "D3" 2024 1 100]

/-- Test fixture: three geocoding candidates sharing one address. -/
def sharedAddrRows : List ExcelRow :=
  [mkRowAt "P" "서울특별시 강남구" 100, mkRowAt "Q" "서울특별시 강남구" 200,
   mkRowAt "R" "서울특별시 강남구" 300]

theorem parseFloatCore_nonneg (cs : List Char) (q : ℚ)
    (h : parseFloatCore cs = some q) : 0 ≤ q := by
  simp only [parseFloatCore] at h
  split at h
  · split at h
    · exact absurd h (by simp)
    · rw [Option.some.injEq] at h
      subst h
      positivity
  · split at h
    · exact absurd h (by simp)
    · rw [Option.some.injEq] at h
      subst h
      positivity

theorem parseFloatJS_cleaned_nonneg (s : String) (q : ℚ)
    (h : parseFloatJS (cleanNumStr s) = some q) : 0 ≤ q := by
  have hmem : ∀ c ∈ (cleanNumStr s).data.dropWhile (fun c => c = ' '),
      (c.isDigit || c = '.') = true := by
    intro c hc
    have h2 : c ∈ (cleanNumStr s).data :=
      List.Sublist.mem hc (List.dropWhile_sublist _)
    exact (List.mem_filter.mp h2).2
  unfold parseFloatJS at h
  split at h
  · rename_i rest heq
    have hbad := hmem '-' (by rw [heq]; exact List.mem_cons_self _ _)
    exact absurd hbad (by decide)
  · rename_i rest heq
    have hbad := hmem '+' (by rw [heq]; exact List.mem_cons_self _ _)
    exact absurd hbad (by decide)
  · exact parseFloatCore_nonneg _ _ h

/-- C2: the number coercer is a total function into the rationals (the
shallow form of "never throws and never returns NaN"): absent, `null`
and empty input give 0, a (finite) numeric input passes through
unchanged, and a string whose cleaned form fails to parse gives 0. -/
theorem parseNum_spec :
    parseNum JSVal.vUndef = 0 ∧ parseNum JSVal.vNull = 0 ∧
    parseNum (JSVal.vStr "") = 0 ∧
    (∀ q : ℚ, parseNum (JSVal.vNum q) = q) ∧
    (∀ s : String, parseFloatJS (cleanNumStr s) = none →
      parseNum (JSVal.vStr s) = 0) := by
  refine ⟨rfl, rfl, rfl, fun _ => rfl, fun s h => ?_⟩
  by_cases hs : s = "" <;> simp [parseNum, hs, h]

/-- Witness for `parseNum_spec` at the garbage string "N/A!!". -/
theorem parseNum_spec_witness :
    parseFloatJS (cleanNumStr "N/A!!") = none ∧
    parseNum (JSVal.vStr "N/A!!") = 0 :=
  ⟨by decide, parseNum_spec.2.2.2.2 "N/A!!" (by decide)⟩

/-- C7 counterexample: a raw record whose quantity and spec_amount cells
hold the numbers -3 and -5 normalizes to a record with negative
quantity and spec_amount — the coercion does not floor numeric input at
0. -/
theorem parseNum_negative_counterexample :
    (normalizeRow 0 [("현장명", JSVal.vStr "P"), ("수량", JSVal.vNum (-3)),
      ("합계", JSVal.vNum (-5))]).quantity = -3 ∧
    (normalizeRow 0 [("현장명", JSVal.vStr "P"), ("수량", JSVal.vNum (-3)),
      ("합계", JSVal.vNum (-5))]).spec_amount = -5 ∧
    (normalizeRow 0 [("현장명", JSVal.vStr "P"), ("수량", JSVal.vNum (-3)),
      ("합계", JSVal.vNum (-5))])
      ∈ handleFileUpload [[("현장명", JSVal.vStr "P"), ("수량", JSVal.vNum (-3)),
          ("합계", JSVal.vNum (-5))]] ∧
    ((-5 : ℚ) < 0) := by
  refine ⟨by decide, by decide, by decide, by norm_num⟩

/-- C7 amended: a cell that is not a number (string, `null` or absent)
coerces to a non-negative value, unparsable input giving 0; a numeric
cell passes through unchanged, so only numeric cells can make quantity
or spec_amount negative. -/
theorem parseNum_sign_amended :
    (∀ v : JSVal, (∀ q : ℚ, v ≠ JSVal.vNum q) → 0 ≤ parseNum v) ∧
    (∀ q : ℚ, parseNum (JSVal.vNum q) = q) := by
  refine ⟨fun v hv => ?_, fun q => rfl⟩
  cases v with
  | vUndef => simp [parseNum]
  | vNull => simp [parseNum]
  | vNum q => exact absurd rfl (hv q)
  | vStr s =>
      by_cases hs : s = ""
      · simp [parseNum, hs]
      · rw [parseNum, if_neg hs]
        cases hp : parseFloatJS (cleanNumStr s) with
        | none => simp
        | some q2 => simpa using parseFloatJS_cleaned_nonneg s q2 hp

/-- Witness for `parseNum_sign_amended`: the string "-7" coerces to the
non-negative 7 (the sign is stripped), while the number -5 passes
through. -/
theorem parseNum_sign_amended_witness :
    0 ≤ parseNum (JSVal.vStr "-7") ∧ parseNum (JSVal.vNum (-5)) = -5 :=
  ⟨parseNum_sign_amended.1 (JSVal.vStr "-7") (fun _ h => JSVal.noConfusion h),
   parseNum_sign_amended.2 (-5)⟩

theorem parseCoord_eq_none_iff (v : Option JSVal) :
    parseCoord v = none
      ↔ (rawCellFloat v = none ∨ rawCellFloat v = some 0) := by
  unfold parseCoord
  cases hr : rawCellFloat v with
  | none => simp
  | some q => by_cases hq : q = 0 <;> simp [hq]

theorem parseCoord_ne_some_zero (v : Option JSVal) : parseCoord v ≠ some 0 := by
  unfold parseCoord
  cases hr : rawCellFloat v with
  | none => simp
  | some q => by_cases hq : q = 0 <;> simp [hq]

/-- C1 counterexample: normalization does not enforce the paired
latitude/longitude invariant — the fixture row whose latitude cell
parses (37.5) and whose longitude cell does not produces a canonical
record with latitude present and longitude null. -/
theorem coord_pairing_counterexample :
    ¬ ∀ (rows : List Row), ∀ r ∈ handleFileUpload rows,
        (r.latitude = none ↔ r.longitude = none) := by
  intro hAll
  have h := hAll [rowHalfCoord] (normalizeRow 0 rowHalfCoord) (by decide)
  exact absurd (h.mpr (by decide)) (by decide)

/-- C1 amended: the two coordinates are parsed independently: each one
is null exactly when its own cell's float parse fails or yields 0, so a
parse failure on one coordinate forces only that coordinate to absent,
leaving the other's parsed value in place. -/
theorem coord_null_iff_own_cell : ∀ (idx : ℕ) (row : Row),
    ((normalizeRow idx row).latitude = none
      ↔ (rawCellFloat (getVal row latAliases) = none
          ∨ rawCellFloat (getVal row latAliases) = some 0)) ∧
    ((normalizeRow idx row).longitude = none
      ↔ (rawCellFloat (getVal row lngAliases) = none
          ∨ rawCellFloat (getVal row lngAliases) = some 0)) := by
  intro idx row
  exact ⟨parseCoord_eq_none_iff _, parseCoord_eq_none_iff _⟩

/-- C9 counterexample: a record whose coordinate cells both parse to the
float 0 is indeed stored with null coordinates, but with the default
placeholder address "-" it is not a geocoding candidate, contradicting
the claim that every such record becomes one. -/
theorem zero_coord_counterexample :
    rawCellFloat (getVal rowZeroCoord latAliases) = some 0 ∧
    rawCellFloat (getVal rowZeroCoord lngAliases) = some 0 ∧
    (normalizeRow 0 rowZeroCoord).latitude = none ∧
    (normalizeRow 0 rowZeroCoord).longitude = none ∧
    (normalizeRow 0 rowZeroCoord) ∈ handleFileUpload [rowZeroCoord] ∧
    isGeocodeCandidate (normalizeRow 0 rowZeroCoord) = false := by decide

/-- C9 amended: a coordinate cell that parses to the float 0 is stored
as null (the parsed value is coalesced with `|| null`), so the record
is classified as missing coordinates; it becomes a geocoding candidate
exactly when, in addition, its address is not the placeholder "-" and
is longer than 5 characters. -/
theorem zero_coord_null_amended : ∀ (idx : ℕ) (row : Row),
    (rawCellFloat (getVal row latAliases) = some 0 →
      (normalizeRow idx row).latitude = none) ∧
    (rawCellFloat (getVal row lngAliases) = some 0 →
      (normalizeRow idx row).longitude = none) ∧
    ((normalizeRow idx row).latitude = none
        ∨ (normalizeRow idx row).longitude = none →
      (isGeocodeCandidate (normalizeRow idx row) = true
        ↔ ((normalizeRow idx row).address ≠ "-"
            ∧ 5 < (normalizeRow idx row).address.length))) := by
  intro idx row
  refine ⟨fun h => (parseCoord_eq_none_iff _).mpr (Or.inr h),
    fun h => (parseCoord_eq_none_iff _).mpr (Or.inr h), fun h => ?_⟩
  have hcoord : (!truthyCoord (normalizeRow idx row).latitude
      || !truthyCoord (normalizeRow idx row).longitude) = true := by
    rcases h with h | h <;> rw [h] <;> simp [truthyCoord]
  have h0 : ∀ s : String, 5 < s.length → s ≠ "" := by
    intro s hl he
    rw [he] at hl
    simp at hl
  simp only [isGeocodeCandidate, hcoord, Bool.true_and, Bool.and_eq_true,
    bne_iff_ne, decide_eq_true_eq]
  constructor
  · exact fun hb => ⟨hb.1.2, hb.2⟩
  · exact fun hb => ⟨⟨h0 _ hb.2, hb.1⟩, hb.2⟩

/-- Witness for `zero_coord_null_amended`: with a usable address, the
zero-coordinate record is a candidate. -/
theorem zero_coord_null_amended_witness :
    rawCellFloat (getVal rowZeroCoordAddr latAliases) = some 0 ∧
    (normalizeRow 0 rowZeroCoordAddr).latitude = none ∧
    isGeocodeCandidate (normalizeRow 0 rowZeroCoordAddr) = true := by
  refine ⟨by decide, (zero_coord_null_amended 0 rowZeroCoordAddr).1 (by decide), ?_⟩
  exact ((zero_coord_null_amended 0 rowZeroCoordAddr).2.2
    (Or.inl ((zero_coord_null_amended 0 rowZeroCoordAddr).1 (by decide)))).mpr
    ⟨by decide, by decide⟩

/-- The coerced project name of a raw row (src/index.tsx line 316). -/
def coercedProjectName (row : Row) : String := strOr (getVal row pnameAliases) ""

/-- Test fixture for Scenario A: a raw row with the spec's headers and
an empty 현장명 (project name) cell. -/
def scenarioARow : Row :=
  [("현장명", JSVal.vStr ""), ("연도", JSVal.vNum 2024), ("월", JSVal.vNum 5),
   ("위도", JSVal.vStr "37.5"), ("경도", JSVal.vStr "127.1"), ("합계", JSVal.vNum 100)]

theorem handleFileUpload_eq (rows : List Row) :
    handleFileUpload rows
      = ((rows.enum.filter (fun p => coercedProjectName p.snd != "")).map
          (fun p => normalizeRow p.fst p.snd)) := by
  unfold handleFileUpload
  rw [List.filter_map]
  rfl

/-- C3: normalization drops a raw row exactly when its project name
coerces to the empty string, and this is the sole filtering rule: the
output is precisely the image of the rows with non-empty coerced name,
one canonical record per kept row; in particular a batch whose only row
has an empty 현장명 yields no records (Scenario A). -/
theorem normalize_drop_iff_empty_name :
    (∀ rows : List Row,
      handleFileUpload rows
        = ((rows.enum.filter (fun p => coercedProjectName p.snd != "")).map
            (fun p => normalizeRow p.fst p.snd)) ∧
      (handleFileUpload rows).length
        = (rows.filter (fun row => coercedProjectName row != "")).length) ∧
    handleFileUpload [scenarioARow] = [] := by
  refine ⟨fun rows => ⟨handleFileUpload_eq rows, ?_⟩, by decide⟩
  rw [handleFileUpload_eq rows, List.length_map]
  conv_rhs => rw [← List.enum_map_snd rows]
  rw [List.filter_map, List.length_map]
  rfl

/-- Test fixture: a raw row with no coordinate cells and a usable
address. -/
def rowNoCoord : Row :=
  [("현장명", JSVal.vStr "Q"), ("주소", JSVal.vStr "서울특별시 강남구")]

/-- C4 counterexample: the half-parsed record (latitude present,
longitude null) produced by normalization IS selected for geocoding,
although its coordinates are not both absent — the filter tests
`!latitude || !longitude`, not "both absent". -/
theorem candidate_counterexample :
    (normalizeRow 0 rowHalfCoord) ∈ handleFileUpload [rowHalfCoord] ∧
    (normalizeRow 0 rowHalfCoord).latitude ≠ none ∧
    isGeocodeCandidate (normalizeRow 0 rowHalfCoord) = true := by decide

/-- C4 amended: a normalized record is a geocoding candidate iff at
least one of its coordinates is absent (for normalized records a
coordinate is never the falsy 0, so JavaScript truthiness agrees with
absence), its address is not the placeholder "-", and its address is
longer than 5 characters. -/
theorem candidate_iff_amended : ∀ (rows : List Row), ∀ r ∈ handleFileUpload rows,
    (isGeocodeCandidate r = true
      ↔ ((r.latitude = none ∨ r.longitude = none)
          ∧ r.address ≠ "-" ∧ 5 < r.address.length)) := by
  intro rows r hr
  rw [handleFileUpload_eq] at hr
  obtain ⟨p, hp, rfl⟩ := List.mem_map.mp hr
  have hlat := parseCoord_ne_some_zero (getVal p.snd latAliases)
  have hlng := parseCoord_ne_some_zero (getVal p.snd lngAliases)
  have h0 : ∀ s : String, 5 < s.length → s ≠ "" := by
    intro s hl he
    rw [he] at hl
    simp at hl
  have hc : ∀ o : Option ℚ, o ≠ some 0 → ((!truthyCoord o) = true ↔ o = none) := by
    intro o ho
    cases o with
    | none => simp [truthyCoord]
    | some q =>
        have hq : q ≠ 0 := fun h => ho (by rw [h])
        simp [truthyCoord, hq]
  simp only [isGeocodeCandidate, Bool.and_eq_true, Bool.or_eq_true,
    bne_iff_ne, decide_eq_true_eq]
  constructor
  · rintro ⟨⟨⟨hcoords, _⟩, hdash⟩, hlen⟩
    refine ⟨?_, hdash, hlen⟩
    rcases hcoords with h | h
    · exact Or.inl ((hc _ hlat).mp h)
    · exact Or.inr ((hc _ hlng).mp h)
  · rintro ⟨hcoords, hdash, hlen⟩
    refine ⟨⟨⟨?_, h0 _ hlen⟩, hdash⟩, hlen⟩
    rcases hcoords with h | h
    · exact Or.inl ((hc _ hlat).mpr h)
    · exact Or.inr ((hc _ hlng).mpr h)

/-- Witness for `candidate_iff_amended`: a normalized record with no
coordinate cells and a usable address is a candidate. -/
theorem candidate_iff_amended_witness :
    (normalizeRow 0 rowNoCoord) ∈ handleFileUpload [rowNoCoord] ∧
    isGeocodeCandidate (normalizeRow 0 rowNoCoord) = true := by
  refine ⟨by decide, ?_⟩
  exact (candidate_iff_amended [rowNoCoord] (normalizeRow 0 rowNoCoord)
    (by decide)).mpr ⟨Or.inl (by decide), by decide, by decide⟩

theorem mem_jsSetDedupAux {α : Type} [DecidableEq α] (a : α) :
    ∀ (l seen : List α), a ∈ jsSetDedupAux seen l ↔ (a ∈ l ∧ a ∉ seen) := by
  intro l
  induction l with
  | nil => intro seen; simp [jsSetDedupAux]
  | cons b rest ih =>
      intro seen
      by_cases hb : b ∈ seen
      · rw [jsSetDedupAux, if_pos hb, ih]
        constructor
        · exact fun h => ⟨List.mem_cons_of_mem _ h.1, h.2⟩
        · rintro ⟨h1, h2⟩
          rcases List.mem_cons.mp h1 with rfl | h1
          · exact absurd hb h2
          · exact ⟨h1, h2⟩
      · rw [jsSetDedupAux, if_neg hb, List.mem_cons, ih]
        constructor
        · rintro (rfl | ⟨h1, h2⟩)
          · exact ⟨List.mem_cons_self _ _, hb⟩
          · exact ⟨List.mem_cons_of_mem _ h1,
              fun hs => h2 (List.mem_cons_of_mem _ hs)⟩
        · rintro ⟨h1, h2⟩
          rcases List.mem_cons.mp h1 with rfl | h1
          · exact Or.inl rfl
          · by_cases hab : a = b
            · exact Or.inl hab
            · exact Or.inr ⟨h1, fun hs => (List.mem_cons.mp hs).elim hab h2⟩

theorem count_jsSetDedupAux_le_one {α : Type} [DecidableEq α] (a : α) :
    ∀ (l seen : List α), (jsSetDedupAux seen l).count a ≤ 1 := by
  intro l
  induction l with
  | nil => intro seen; simp [jsSetDedupAux]
  | cons b rest ih =>
      intro seen
      by_cases hb : b ∈ seen
      · rw [jsSetDedupAux, if_pos hb]
        exact ih seen
      · rw [jsSetDedupAux, if_neg hb, List.count_cons]
        by_cases hab : a = b
        · subst hab
          have h0 : (jsSetDedupAux (a :: seen) rest).count a = 0 :=
            List.count_eq_zero.mpr (fun hm =>
              ((mem_jsSetDedupAux a rest (a :: seen)).mp hm).2
                (List.mem_cons_self _ _))
          simp [h0]
        · simpa [Ne.symm hab] using ih (b :: seen)

/-- C5: within one ingestion run each distinct address is looked up at
most once: the loop's address list contains every candidate address
exactly once (membership iff some candidate record bears the address,
multiplicity at most 1); in particular three candidate records sharing
one address produce an address list of length 1 — one external call. -/
theorem geocode_dedup_once :
    (∀ (rawData : List ExcelRow) (a : String),
      (uniqueAddresses rawData).count a ≤ 1 ∧
      (a ∈ uniqueAddresses rawData
        ↔ ∃ r ∈ rowsToGeocode rawData, r.address = a)) ∧
    (rowsToGeocode sharedAddrRows).length = 3 ∧
    (uniqueAddresses sharedAddrRows).length = 1 := by
  refine ⟨fun rawData a => ⟨count_jsSetDedupAux_le_one a _ [], ?_⟩, by decide, by decide⟩
  constructor
  · intro h
    have h1 := ((mem_jsSetDedupAux a _ []).mp h).1
    obtain ⟨r, hr, ha⟩ := List.mem_map.mp h1
    exact ⟨r, hr, ha⟩
  · rintro ⟨r, hr, ha⟩
    exact (mem_jsSetDedupAux a _ []).mpr
      ⟨List.mem_map.mpr ⟨r, hr, ha⟩, by simp⟩

/-- The descending order used by the ranking: earlier entries carry
larger-or-equal sums. -/
def rankGe (a b : String × ℚ) : Prop := b.snd ≤ a.snd

theorem mem_insertDesc (x y : String × ℚ) :
    ∀ l : List (String × ℚ), y ∈ insertDesc x l ↔ (y = x ∨ y ∈ l) := by
  intro l
  induction l with
  | nil => simp [insertDesc]
  | cons z rest ih =>
      simp only [insertDesc]
      by_cases h : z.snd < x.snd
      · simp [h, List.mem_cons]
      · simp [h, List.mem_cons, ih]
        tauto

theorem sorted_insertDesc (x : String × ℚ) :
    ∀ l : List (String × ℚ),
      List.Sorted rankGe l → List.Sorted rankGe (insertDesc x l) := by
  intro l
  induction l with
  | nil => intro h2; simp [insertDesc, List.sorted_singleton]
  | cons y rest ih =>
      intro hs
      rw [List.sorted_cons] at hs
      obtain ⟨hy, hrest⟩ := hs
      simp only [insertDesc]
      by_cases h : y.snd < x.snd
      · rw [if_pos h, List.sorted_cons]
        constructor
        · intro b hb
          rcases List.mem_cons.mp hb with rfl | hb
          · exact le_of_lt h
          · exact le_trans (hy b hb) (le_of_lt h)
        · rw [List.sorted_cons]
          exact ⟨hy, hrest⟩
      · rw [if_neg h, List.sorted_cons]
        constructor
        · intro b hb
          rcases (mem_insertDesc x b rest).mp hb with rfl | hb
          · exact le_of_not_lt h
          · exact hy b hb
        · exact ih hrest

theorem sorted_foldl_insertDesc :
    ∀ (l acc : List (String × ℚ)), List.Sorted rankGe acc →
      List.Sorted rankGe (l.foldl (fun acc x => insertDesc x acc) acc) := by
  intro l
  induction l with
  | nil => intro acc h; exact h
  | cons x rest ih =>
      intro acc h
      exact ih _ (sorted_insertDesc x acc h)

theorem sorted_sortDesc (l : List (String × ℚ)) :
    List.Sorted rankGe (sortDesc l) :=
  sorted_foldl_insertDesc l [] List.sorted_nil

theorem mem_foldl_insertDesc (y : String × ℚ) :
    ∀ (l acc : List (String × ℚ)),
      y ∈ l.foldl (fun acc x => insertDesc x acc) acc ↔ (y ∈ acc ∨ y ∈ l) := by
  intro l
  induction l with
  | nil => intro acc; simp
  | cons x rest ih =>
      intro acc
      rw [List.foldl_cons, ih, mem_insertDesc]
      simp [List.mem_cons]
      tauto

theorem mem_sortDesc (y : String × ℚ) (l : List (String × ℚ)) :
    y ∈ sortDesc l ↔ y ∈ l := by
  rw [sortDesc, mem_foldl_insertDesc]
  simp

/-- Reference lookup in a summed association list: the value at a key,
0 when absent. -/
def lookupBump : List (String × ℚ) → String → ℚ
  | [], _ => 0
  | (k0, v0) :: rest, k => if k0 = k then v0 else lookupBump rest k

theorem lookupBump_bump :
    ∀ (m : List (String × ℚ)) (k k2 : String) (v : ℚ),
      lookupBump (bump m k v) k2
        = if k = k2 then lookupBump m k2 + v else lookupBump m k2 := by
  intro m
  induction m with
  | nil =>
      intro k k2 v
      by_cases h : k = k2 <;> simp [bump, lookupBump, h]
  | cons p rest ih =>
      intro k k2 v
      obtain ⟨k0, v0⟩ := p
      by_cases h0 : k0 = k
      · subst h0
        by_cases h2 : k0 = k2 <;> simp [bump, lookupBump, h2]
      · by_cases h2 : k0 = k2
        · subst h2
          have hk : k ≠ k0 := fun h => h0 h.symm
          simp [bump, h0, lookupBump, hk]
        · simp [bump, h0, lookupBump, h2, ih]

theorem mem_keys_bump (k k1 : String) (v : ℚ) :
    ∀ m : List (String × ℚ),
      k1 ∈ (bump m k v).map Prod.fst ↔ (k1 ∈ m.map Prod.fst ∨ k1 = k) := by
  intro m
  induction m with
  | nil => simp [bump]
  | cons p rest ih =>
      obtain ⟨k0, v0⟩ := p
      by_cases h0 : k0 = k
      · rw [bump, if_pos h0, h0]
        simp [List.mem_cons]
        tauto
      · rw [bump, if_neg h0]
        simp only [List.map_cons, List.mem_cons, ih]
        tauto

theorem nodup_keys_bump :
    ∀ (m : List (String × ℚ)) (k : String) (v : ℚ),
      (m.map Prod.fst).Nodup → ((bump m k v).map Prod.fst).Nodup := by
  intro m
  induction m with
  | nil => intro k v _; simp [bump]
  | cons p rest ih =>
      intro k v h
      obtain ⟨k0, v0⟩ := p
      simp only [List.map_cons, List.nodup_cons] at h
      by_cases h0 : k0 = k
      · rw [bump, if_pos h0]
        simp only [List.map_cons, List.nodup_cons]
        exact ⟨h.1, h.2⟩
      · rw [bump, if_neg h0]
        simp only [List.map_cons, List.nodup_cons]
        refine ⟨?_, ih k v h.2⟩
        intro hmem
        rcases (mem_keys_bump k k0 v rest).mp hmem with hm | hm
        · exact h.1 hm
        · exact h0 hm

theorem nodup_keys_foldl_bump (lab : ExcelRow → String) :
    ∀ (fd : List ExcelRow) (m : List (String × ℚ)),
      (m.map Prod.fst).Nodup →
      ((fd.foldl (fun m d => bump m (lab d) d.spec_amount) m).map Prod.fst).Nodup := by
  intro fd
  induction fd with
  | nil => intro m h; exact h
  | cons d rest ih =>
      intro m h
      exact ih _ (nodup_keys_bump m (lab d) d.spec_amount h)

theorem eq_lookupBump_of_mem (k : String) (v : ℚ) :
    ∀ m : List (String × ℚ), (m.map Prod.fst).Nodup → (k, v) ∈ m →
      v = lookupBump m k := by
  intro m
  induction m with
  | nil => intro _ h; simp at h
  | cons p rest ih =>
      intro hnd hm
      obtain ⟨k0, v0⟩ := p
      simp only [List.map_cons, List.nodup_cons] at hnd
      rcases List.mem_cons.mp hm with heq | hm
      · injection heq with h1 h2
        subst h1
        subst h2
        simp [lookupBump]
      · have hk : k0 ≠ k := by
          intro h
          subst h
          exact hnd.1 (List.mem_map_of_mem Prod.fst hm)
        rw [lookupBump, if_neg hk]
        exact ih hnd.2 hm

theorem lookupBump_foldl_bump (lab : ExcelRow → String) (k : String) :
    ∀ (fd : List ExcelRow) (m : List (String × ℚ)),
      lookupBump (fd.foldl (fun m d => bump m (lab d) d.spec_amount) m) k
        = lookupBump m k
          + ((fd.filter (fun d => lab d == k)).map (fun d => d.spec_amount)).sum := by
  intro fd
  induction fd with
  | nil => intro m; simp
  | cons d rest ih =>
      intro m
      rw [List.foldl_cons, ih, lookupBump_bump, List.filter_cons]
      by_cases h : lab d = k
      · rw [if_pos h]
        simp [h]
        ring
      · rw [if_neg h]
        simp [h]

theorem top_amount (lab : ExcelRow → String) (fd : List ExcelRow) (p : String × ℚ)
    (hp : p ∈ (sortDesc (fd.foldl (fun m d => bump m (lab d) d.spec_amount) [])).take 5) :
    p.snd = ((fd.filter (fun d => lab d == p.fst)).map (fun d => d.spec_amount)).sum := by
  obtain ⟨k, v⟩ := p
  have h1 : (k, v) ∈ sortDesc (fd.foldl (fun m d => bump m (lab d) d.spec_amount) []) :=
    List.Sublist.mem hp (List.take_sublist _ _)
  have h2 : (k, v) ∈ fd.foldl (fun m d => bump m (lab d) d.spec_amount) [] :=
    (mem_sortDesc _ _).mp h1
  have hnd := nodup_keys_foldl_bump lab fd [] (by simp)
  have h3 := eq_lookupBump_of_mem k v _ hnd h2
  have h4 := lookupBump_foldl_bump lab k fd []
  rw [h3, h4]
  simp [lookupBump]

/-- C6: the ranking sums spec_amount per constructor and per designer
bucket (placeholder records under the catch-all 기타 label — see
`consLabel`/`desLabel`), is sorted descending by sum, is truncated to at
most 5 entries, and on Scenario F ({A:300, B:300, C:100}, A before B)
the stable tie-break orders A before B. -/
theorem ranking_topN :
    (∀ fd : List ExcelRow,
      (summary fd).top3Cons.length ≤ 5 ∧
      (summary fd).top3Des.length ≤ 5 ∧
      List.Sorted rankGe ((summary fd).top3Cons) ∧
      List.Sorted rankGe ((summary fd).top3Des) ∧
      (∀ p ∈ (summary fd).top3Cons,
        p.snd = ((fd.filter (fun d => consLabel d == p.fst)).map
          (fun d => d.spec_amount)).sum) ∧
      (∀ p ∈ (summary fd).top3Des,
        p.snd = ((fd.filter (fun d => desLabel d == p.fst)).map
          (fun d => d.spec_amount)).sum)) ∧
    (summary scenarioF).top3Cons = [("A", 300), ("B", 300), ("C", 100)] := by
  refine ⟨fun fd => ⟨List.length_take_le _ _, List.length_take_le _ _,
    List.Pairwise.sublist (List.take_sublist _ _) (sorted_sortDesc _),
    List.Pairwise.sublist (List.take_sublist _ _) (sorted_sortDesc _),
    fun p hp => top_amount consLabel fd p hp,
    fun p hp => top_amount desLabel fd p hp⟩, by decide⟩

/-- Witness for `ranking_topN`: in Scenario F the entry ("A", 300) is in
the top list and 300 is indeed A's summed spec_amount (100 + 200). -/
theorem ranking_topN_witness :
    (("A", (300 : ℚ)) ∈ (summary scenarioF).top3Cons) ∧
    (300 : ℚ) = ((scenarioF.filter (fun d => consLabel d == "A")).map
      (fun d => d.spec_amount)).sum := by
  refine ⟨by decide, ?_⟩
  exact (ranking_topN.1 scenarioF).2.2.2.2.1 ("A", (300 : ℚ)) (by decide)

/-- C8 counterexample: on an empty record set the month trend array is
not empty — it is the fixed 12-bucket array (one entry per month,
zero-filled), so "empty ranking and trend arrays" fails for it. -/
theorem empty_aggregation_counterexample :
    (trends [] 0 0).monthTrend ≠ [] ∧ (trends [] 0 0).monthTrend.length = 12 := by
  refine ⟨by decide, by decide⟩

/-- C8 amended: aggregating an empty record set never errors and yields
zero project count, zero total, empty rankings, empty year and
designer trends, and a 12-entry month trend whose values are all 0. -/
theorem empty_aggregation_amended :
    summary [] = { siteCount := 0, totalSpec := 0, top3Cons := [], top3Des := [] } ∧
    (trends [] 0 0).yearTrend = [] ∧
    (trends [] 0 0).designerTrend = [] ∧
    (trends [] 0 0).monthTrend
      = (List.range 12).map (fun i => (toString (i + 1) ++ "월", (0 : ℚ))) := by
  refine ⟨by decide, by decide, by decide, by decide⟩

/-- C10 counterexample: on a record whose constructor and designer are
the placeholder "-", the src/index.tsx summary buckets it under 기타
while the src/unnamed/part_000 summary keeps the "-" bucket, so the two
rankings differ. -/
theorem summaries_differ_counterexample :
    (summary [mkRow "P" "-" "-" 2024 1 100]).top3Cons = [("기타", 100)] ∧
    (summaryP [mkRow "P" "-" "-" 2024 1 100]).top3Cons = [("-", 100)] ∧
    (summary [mkRow "P" "-" "-" 2024 1 100]).top3Cons
      ≠ (summaryP [mkRow "P" "-" "-" 2024 1 100]).top3Cons := by
  refine ⟨by decide, by decide, by decide⟩

theorem foldl_bump_congr (lab1 lab2 : ExcelRow → String) :
    ∀ (fd : List ExcelRow), (∀ d ∈ fd, lab1 d = lab2 d) →
      ∀ m : List (String × ℚ),
        fd.foldl (fun m d => bump m (lab1 d) d.spec_amount) m
          = fd.foldl (fun m d => bump m (lab2 d) d.spec_amount) m := by
  intro fd
  induction fd with
  | nil => intro _ m; rfl
  | cons d rest ih =>
      intro h m
      rw [List.foldl_cons, List.foldl_cons, h d (List.mem_cons_self _ _)]
      exact ih (fun d2 hd2 => h d2 (List.mem_cons_of_mem _ hd2)) _

/-- C10 amended: the two summary variants agree on every record set in
which no constructor or designer field is empty or the placeholder "-";
they diverge exactly on those placeholder buckets (src/index.tsx
relabels "-" to 기타, src/unnamed/part_000 relabels only the empty
string). -/
theorem summaries_agree_amended : ∀ fd : List ExcelRow,
    (∀ d ∈ fd, d.constructor ≠ "" ∧ d.constructor ≠ "-"
      ∧ d.designer ≠ "" ∧ d.designer ≠ "-") →
    summary fd = summaryP fd := by
  intro fd h
  have hcons : ∀ d ∈ fd, consLabel d = consLabelP d := by
    intro d hd
    obtain ⟨h1, h2, _, _⟩ := h d hd
    simp [consLabel, consLabelP, h1, h2]
  have hdes : ∀ d ∈ fd, desLabel d = desLabelP d := by
    intro d hd
    obtain ⟨_, _, h3, h4⟩ := h d hd
    simp [desLabel, desLabelP, h3, h4]
  unfold summary summaryP
  rw [foldl_bump_congr consLabel consLabelP fd hcons [],
    foldl_bump_congr desLabel desLabelP fd hdes []]

/-- Witness for `summaries_agree_amended`: the two summaries coincide on
a one-record set with ordinary constructor and designer names. -/
theorem summaries_agree_amended_witness :
    summary [mkRow "P" "A" "D" 2024 1 100]
      = summaryP [mkRow "P" "A" "D" 2024 1 100] :=
  summaries_agree_amended _ (by decide)
